import Mathlib

/-!
Shallow embedding of the task-board rule engine of `src/src/TaaskManagementApp.jsx`
(the second, authoritative file variant, lines 798-2025; the first variant is
byte-identical on all of the logic embedded here).

Modelling conventions:
* JavaScript numbers that hold epoch-millisecond timestamps or point costs are
  modelled as `Int`; fields that may be `null`/`undefined` are `Option Int`.
* JavaScript truthiness on such optional numbers (`x && ...`, `x || d`) is
  modelled by `jsTruthy` / `jsOrElse`: `none` and `some 0` are falsy.
* Task ids (`crypto.randomUUID()`) are opaque; they are modelled as `Nat`.
* Statuses are the literal strings of the source: `"Opened"`, `"In Progress"`,
  `"Completed"`, `"Archived"`.
* The React state update `setTasks(prev => ...)` is modelled as a pure function
  `List Task → List Task` (plus returned metadata where the source keeps a
  counter or an error message).
* `Array.prototype.sort` with a numeric comparator is modelled with
  `List.insertionSort` over the total preorder induced by the comparator key;
  the claims under verification only concern sortedness and membership, which
  are comparator-sort agnostic.
-/

namespace Kanban

/-- Truthiness of an optional JS number: `null`/`undefined` and `0` are falsy. -/
def jsTruthy (x : Option Int) : Bool :=
  match x with
  | none => false
  | some v => v != 0

/-- Model of the JS expression `x || d` for an optional number `x`. -/
def jsOrElse (x : Option Int) (d : Int) : Int :=
  match x with
  | none => d
  | some v => if v = 0 then d else v

/-- Board statuses, from the source constant `ACTIVE_STATUSES`. -/
def ACTIVE_STATUSES : List String := ["Opened", "In Progress", "Completed"]

/-- A subtask record, as built by `TaskForm.handleAddSubtask` (id, title,
completed flag, due-date timestamp, point cost). -/
structure Subtask where
  id : Nat
  title : String
  completed : Bool
  dueDate : Option Int
  eta : Option Int
deriving DecidableEq

/-- A task record, as built by `TaskForm.handleSubmit` (`taskData`) plus the
`archivedAt` field added ad hoc by `handleArchiveCompletedTasks`. -/
structure Task where
  id : Nat
  title : String
  description : String
  status : String
  eta : Option Int
  dueDate : Option Int
  completedDate : Option Int
  createdAt : Int
  archivedAt : Option Int
  subtasks : List Subtask
deriving DecidableEq

/-- Source `TaskForm` state relevant to `handleSubmit`: the text fields, the
parsed `eta` input (`none` models `NaN` from `parseInt`), the parsed due-date
string (`none` models the empty string), the subtask list being edited, and
the task being edited (`none` when creating). -/
structure FormState where
  title : String
  description : String
  etaField : Option Int
  dueDateField : Option Int
  subtasks : List Subtask
  taskToEdit : Option Task
deriving DecidableEq

/-- Source `currentSubtaskTotal`:
`subtasks.reduce((sum, st) => sum + (st.eta || 0), 0)`. -/
def currentSubtaskTotal (subtasks : List Subtask) : Int :=
  subtasks.foldl (fun sum st => sum + jsOrElse st.eta 0) 0

/-- The `taskData` object literal built inside `TaskForm.handleSubmit`
(lines 1187-1200). Note it carries no `archivedAt` key. -/
def buildTaskData (form : FormState) (newId : Nat) (now : Int) : Task :=
  { id := match form.taskToEdit with | some t => t.id | none => newId
    title := form.title.trim
    description := form.description.trim
    status := match form.taskToEdit with | some t => t.status | none => "Opened"
    eta := some (jsOrElse form.etaField 1)
    dueDate := form.dueDateField
    completedDate := match form.taskToEdit with | some t => t.completedDate | none => none
    createdAt := match form.taskToEdit with | some t => t.createdAt | none => now
    archivedAt := none
    subtasks := form.subtasks }

/-- Source `handleSaveTask` (lines 1644-1655): replace the task with the same
id when editing, append when creating. -/
def handleSaveTask (tasks : List Task) (taskToEdit : Option Task) (taskData : Task) :
    List Task :=
  match taskToEdit with
  | some _ => tasks.map fun t => if t.id = taskData.id then taskData else t
  | none => tasks ++ [taskData]

/-- Source `TaskForm.handleSubmit` (lines 1167-1207) composed with the
`onSaveTask` callback (= `handleSaveTask`): the blank-field check, then the
point-budget check `currentSubtaskTotal > mainTaskEta` with
`mainTaskEta = parseInt(eta, 10) || 1`; on success the built `taskData` is
saved into the collection. -/
def handleSubmit (form : FormState) (tasks : List Task) (newId : Nat) (now : Int) :
    Except String (List Task) :=
  if form.title.trim = "" ∨ form.description.trim = "" ∨ form.dueDateField = none then
    Except.error "Please fill out all required fields (Title, Description, Due Date)."
  else if jsOrElse form.etaField 1 < currentSubtaskTotal form.subtasks then
    Except.error "Total subtask points exceed the main task points. Please adjust."
  else
    Except.ok (handleSaveTask tasks form.taskToEdit (buildTaskData form newId now))

/-- A creation/update attempt as the store sees it: on a validation failure the
form keeps the error message and `onSaveTask` is never called, so the stored
collection stays what it was. -/
def submitTask (form : FormState) (tasks : List Task) (newId : Nat) (now : Int) :
    List Task × Option String :=
  match handleSubmit form tasks newId now with
  | Except.ok updated => (updated, none)
  | Except.error msg => (tasks, some msg)

/-- Source `handleDeleteTask` (lines 1659-1661):
`prevTasks.filter(task => task.id !== taskId)`. -/
def handleDeleteTask (tasks : List Task) (taskId : Nat) : List Task :=
  tasks.filter fun t => t.id ≠ taskId

/-- Per-subtask step of `handleToggleSubtask`: flip `completed` on the
matching subtask. -/
def subtaskToggleStep (subtaskId : Nat) (st : Subtask) : Subtask :=
  if st.id = subtaskId then { st with completed := !st.completed } else st

/-- Per-task step of `handleToggleSubtask`: rewrite the subtask list of the
matching task. The source comment notes the main task status is deliberately
not changed here. -/
def toggleStep (taskId subtaskId : Nat) (t : Task) : Task :=
  if t.id = taskId then
    { t with subtasks := t.subtasks.map (subtaskToggleStep subtaskId) }
  else t

/-- Source `handleToggleSubtask` (lines 1664-1679). -/
def handleToggleSubtask (tasks : List Task) (taskId subtaskId : Nat) : List Task :=
  tasks.map (toggleStep taskId subtaskId)

/-- Per-task step of `handleTaskStatusChange` (lines 1683-1700): set the new
status, stamping `completedDate = Date.now()` on entry to `Completed` and
clearing it otherwise. No id or status validation is performed. -/
def statusStep (taskId : Nat) (newStatus : String) (now : Int) (t : Task) : Task :=
  if t.id = taskId then
    if newStatus = "Completed" then { t with status := newStatus, completedDate := some now }
    else { t with status := newStatus, completedDate := none }
  else t

/-- Source `handleTaskStatusChange` (lines 1683-1700). -/
def handleTaskStatusChange (tasks : List Task) (taskId : Nat) (newStatus : String)
    (now : Int) : List Task :=
  tasks.map (statusStep taskId newStatus now)

/-- Archive condition of `handleArchiveCompletedTasks` (lines 1714-1717):
`task.status === 'Completed' && task.completedDate && Number(task.completedDate) >= oneWeekAgo`. -/
def shouldArchive (oneWeekAgo : Int) (t : Task) : Bool :=
  t.status == "Completed" && jsTruthy t.completedDate &&
    decide (oneWeekAgo ≤ t.completedDate.getD 0)

/-- Per-task step of `handleArchiveCompletedTasks` (lines 1712-1726): a task
meeting the condition is transitioned to `Archived` with
`archivedAt = Date.now()`. In the source
`oneWeekAgo = Date.now() - 7*24*60*60*1000`; it is taken as the `windowStart`
parameter here, as in the specification. -/
def archiveStep (oneWeekAgo now : Int) (t : Task) : Task :=
  if shouldArchive oneWeekAgo t then { t with status := "Archived", archivedAt := some now }
  else t

/-- Source `handleArchiveCompletedTasks` (lines 1704-1739), second component:
the `archivedCount` counter incremented once per transitioned task. -/
def handleArchiveCompletedTasks (tasks : List Task) (oneWeekAgo now : Int) :
    List Task × Nat :=
  (tasks.map (archiveStep oneWeekAgo now),
   (tasks.filter (shouldArchive oneWeekAgo)).length)

/-- Character-list version of `String.startsWith` used by the substring test. -/
def listStarts : List Char → List Char → Bool
  | [], _ => true
  | _ :: _, [] => false
  | c :: cs, d :: ds => c == d && listStarts cs ds

/-- Character-list version of `String.prototype.includes`. -/
def listHas (needle : List Char) : List Char → Bool
  | [] => listStarts needle []
  | c :: cs => listStarts needle (c :: cs) || listHas needle cs

/-- Model of `hay.includes(needle)` on strings. -/
def strHas (hay needle : String) : Bool :=
  listHas needle.data hay.data

/-- Model of `s.toLowerCase()`. -/
def toLowerStr (s : String) : String :=
  String.mk (s.data.map Char.toLower)

/-- Text filter of the board memo (lines 1758-1760): empty query matches all,
otherwise case-insensitive substring match on title or description.
`searchLower` is the already-lowercased query. -/
def matchesSearchQ (searchLower : String) (t : Task) : Bool :=
  searchLower == "" || strHas (toLowerStr t.title) searchLower ||
    strHas (toLowerStr t.description) searchLower

/-- Due-by ceiling filter of the board memo (line 1762):
`dueByDate === '' || (task.dueDate && task.dueDate <= dueByTimestamp)`.
`none` models the empty date string (filter inactive). -/
def matchesDueBy (dueBy : Option Int) (t : Task) : Bool :=
  match dueBy with
  | none => true
  | some threshold => jsTruthy t.dueDate && decide (jsOrElse t.dueDate 0 ≤ threshold)

/-- A non-archived task passes onto the board when both filters accept it
(lines 1751-1766). -/
def boardPass (q : String) (dueBy : Option Int) (t : Task) : Bool :=
  !(t.status == "Archived") && matchesSearchQ (toLowerStr q) t && matchesDueBy dueBy t

/-- Grouping rule of the board memo (lines 1768-1773): a recognized active
status keeps its own column, anything else is defensively grouped under
`Opened`. -/
def groupKey (t : Task) : String :=
  if ACTIVE_STATUSES.contains t.status then t.status else "Opened"

/-- The filtered, grouped (but not yet sorted) column for `status`: the tasks
pushed into `groups[status]` by the forEach loop, in collection order. -/
def groupedTasksRaw (tasks : List Task) (q : String) (dueBy : Option Int)
    (status : String) : List Task :=
  (tasks.filter (boardPass q dueBy)).filter fun t => groupKey t == status

/-- Sort key for the `dueDate` comparator `(a.dueDate || Infinity) - (b.dueDate || Infinity)`:
`none` stands for `Infinity` (absent or zero due date). -/
def dueKeyN (t : Task) : Option Int :=
  match t.dueDate with
  | none => none
  | some v => if v = 0 then none else some v

/-- Comparator order of the `dueDate` sort mode: ascending due date, missing
dates last. -/
def dueLe (a b : Task) : Bool :=
  match dueKeyN a, dueKeyN b with
  | none, none => true
  | none, some _ => false
  | some _, none => true
  | some x, some y => x ≤ y

/-- Numeric key of the `eta` comparator `(b.eta || 0) - (a.eta || 0)`. -/
def etaKey (t : Task) : Int :=
  jsOrElse t.eta 0

/-- The `dueDate` comparator as a relation. -/
def dueRel (a b : Task) : Prop :=
  dueLe a b = true

/-- The `eta` comparator as a relation: descending point cost. -/
def etaRel (a b : Task) : Prop :=
  etaKey b ≤ etaKey a

instance : DecidableRel dueRel := fun a b => instDecidableEqBool (dueLe a b) true

instance : DecidableRel etaRel := fun a b => Int.decLe (etaKey b) (etaKey a)

/-- The `sorter` comparator of lines 1777-1786, applied as a comparison sort:
sort ascending by due date, or descending by eta, or leave the order alone for
any other `mainBoardSortBy` value. -/
def sortBoard (sortKey : String) (l : List Task) : List Task :=
  if sortKey = "dueDate" then List.insertionSort dueRel l
  else if sortKey = "eta" then List.insertionSort etaRel l
  else l

/-- The displayed board column for `status`: the source sorts only
`groups['Opened']` and `groups['In Progress']` (lines 1788-1789); the
`Completed` group is returned as grouped. -/
def groupedTasks (tasks : List Task) (q : String) (dueBy : Option Int)
    (sortKey : String) (status : String) : List Task :=
  if status = "Opened" ∨ status = "In Progress" then
    sortBoard sortKey (groupedTasksRaw tasks q dueBy status)
  else
    groupedTasksRaw tasks q dueBy status

/-- The per-column reduce of lines 1792-1795:
`groups[status].reduce((sum, task) => sum + (task.eta || 0), 0)`. -/
def sumEta (l : List Task) : Int :=
  l.foldl (fun sum t => sum + jsOrElse t.eta 0) 0

/-- Source `pointSummary`: per active status, the eta sum of that displayed
column. -/
def pointSummary (tasks : List Task) (q : String) (dueBy : Option Int)
    (sortKey : String) (status : String) : Int :=
  sumEta (groupedTasks tasks q dueBy sortKey status)

/-- Invariant that actually holds on the code: `completedDate` is set exactly
when the task is `Completed` or `Archived` (archiving preserves the
completion stamp; the archived view filters and displays it). -/
def cdInv (t : Task) : Prop :=
  t.completedDate.isSome = (t.status == "Completed" || t.status == "Archived")

instance (t : Task) : Decidable (cdInv t) :=
  instDecidableEqBool _ _

/-- The specification's archive condition, phrased directly: the task is
`Completed` and its completion date lies on or after the window start. -/
def archCondB (w : Int) (t : Task) : Bool :=
  t.status == "Completed" &&
    (match t.completedDate with
     | some d => decide (w ≤ d)
     | none => false)

instance : IsTotal Task dueRel :=
  ⟨fun a b => by
    unfold dueRel dueLe
    rcases dueKeyN a with _ | x <;> rcases dueKeyN b with _ | y <;> simp <;> omega⟩

instance : IsTrans Task dueRel :=
  ⟨fun a b c h1 h2 => by
    unfold dueRel dueLe at h1 h2 ⊢
    rcases hka : dueKeyN a with _ | x <;> rcases hkb : dueKeyN b with _ | y <;>
      rcases hkc : dueKeyN c with _ | z <;> simp_all <;> omega⟩

instance : IsTotal Task etaRel :=
  ⟨fun a b => Int.le_total (etaKey b) (etaKey a)⟩

instance : IsTrans Task etaRel :=
  ⟨fun _ _ _ h1 h2 => le_trans h2 h1⟩

/-! Concrete sample records used by witnesses and counterexamples. -/

/-- A completed task with a later due date (eta 2, completed at 5). -/
def tCompA : Task := ⟨1, "apple", "da", "Completed", some 2, some 5, some 5, 0, none, []⟩

/-- A completed task with an earlier due date (eta 3, completed at 6). -/
def tCompB : Task := ⟨2, "pear", "db", "Completed", some 3, some 3, some 6, 0, none, []⟩

/-- An opened task with eta 3. -/
def tOpen3 : Task := ⟨3, "alpha", "d3", "Opened", some 3, some 10, none, 0, none, []⟩

/-- An opened task with eta 7. -/
def tOpen7 : Task := ⟨4, "beta", "d7", "Opened", some 7, some 20, none, 0, none, []⟩

/-- An opened task carrying a single incomplete subtask. -/
def tTog : Task := ⟨5, "tog", "dt", "Opened", some 1, none, none, 0, none,
  [⟨9, "s", false, none, some 1⟩]⟩

/-- An opened task with no due date. -/
def tNoDue : Task := ⟨6, "x", "y", "Opened", some 1, none, none, 0, none, []⟩

/-- A form whose single subtask costs 6 points against a main eta of 5. -/
def formOver : FormState := ⟨"A", "d", some 5, some 100, [⟨9, "s", false, none, some 6⟩], none⟩

/-! Helper lemmas. -/

/-- Mapping a function that fixes every element of a list is the identity. -/
theorem listMapId {α : Type} (f : α → α) (l : List α) (h : ∀ x ∈ l, f x = x) :
    l.map f = l := by
  induction l with
  | nil => rfl
  | cons x xs ih =>
    simp only [List.map_cons]
    rw [h x (List.mem_cons_self x xs), ih fun y hy => h y (List.mem_cons_of_mem x hy)]

/-- A submit attempt either leaves the collection untouched (a validation
failure) or stores the built `taskData` through `handleSaveTask`. -/
theorem submitTask_fst (form : FormState) (tasks : List Task) (newId : Nat) (now : Int) :
    (submitTask form tasks newId now).1 = tasks ∨
      (submitTask form tasks newId now).1 =
        handleSaveTask tasks form.taskToEdit (buildTaskData form newId now) := by
  by_cases h1 : form.title.trim = "" ∨ form.description.trim = "" ∨ form.dueDateField = none
  · left
    simp [submitTask, handleSubmit, h1]
  · by_cases h2 : jsOrElse form.etaField 1 < currentSubtaskTotal form.subtasks
    · left
      simp [submitTask, handleSubmit, h1, h2]
    · right
      simp [submitTask, handleSubmit, h1, h2]

/-- C1: for every creation or update attempt in which the sum of the subtasks'
eta exceeds the task's eta, the operation fails with a validation error (the
form reports an error and `onSaveTask` is never called) and the stored task
collection is exactly as it was before the attempt. -/
theorem submit_overbudget_rejected (form : FormState) (tasks : List Task) (newId : Nat)
    (now : Int) (h : jsOrElse form.etaField 1 < currentSubtaskTotal form.subtasks) :
    (submitTask form tasks newId now).1 = tasks ∧
      ((submitTask form tasks newId now).2).isSome = true := by
  by_cases h1 : form.title.trim = "" ∨ form.description.trim = "" ∨ form.dueDateField = none
  · simp [submitTask, handleSubmit, h1]
  · simp [submitTask, handleSubmit, h1, h]

/-- Witness for C1: the overbudget form (subtask points 6 against main eta 5)
is rejected and an empty collection stays empty. -/
theorem submit_overbudget_rejected_witness :
    jsOrElse formOver.etaField 1 < currentSubtaskTotal formOver.subtasks ∧
      ((submitTask formOver [] 1 0).1 = [] ∧
        ((submitTask formOver [] 1 0).2).isSome = true) :=
  ⟨by decide, submit_overbudget_rejected formOver [] 1 0 (by decide)⟩

/-- Counterexample to C2 as stated: archiving the completed task `tCompA`
leaves its `completedDate` set while its status is `Archived`, not
`Completed`, so after `archiveCompleted` the biconditional
`completedDate set ⟺ status == Completed` fails. -/
theorem archive_keeps_completedDate_cex :
    ((handleArchiveCompletedTasks [tCompA] 1 10).1.all
        fun t => t.completedDate.isSome == (t.status == "Completed")) = false := by
  decide

/-- C2 as amended: after every operation (create, update, changeStatus with an
active target status, toggleSubtask, archiveCompleted, delete) every stored
task satisfies `cdInv`: `completedDate` is set iff the status is `Completed`
or `Archived`, provided every task satisfied it before (and, for an update,
the record being edited satisfies it). -/
theorem completedDate_inv_preserved (tasks : List Task) (hinv : ∀ t ∈ tasks, cdInv t) :
    (∀ form newId now, (∀ te, FormState.taskToEdit form = some te → cdInv te) →
        ∀ t ∈ (submitTask form tasks newId now).1, cdInv t) ∧
    (∀ id s now, s ∈ ACTIVE_STATUSES →
        ∀ t ∈ handleTaskStatusChange tasks id s now, cdInv t) ∧
    (∀ a b, ∀ t ∈ handleToggleSubtask tasks a b, cdInv t) ∧
    (∀ w now, ∀ t ∈ (handleArchiveCompletedTasks tasks w now).1, cdInv t) ∧
    (∀ id, ∀ t ∈ handleDeleteTask tasks id, cdInv t) := by
  refine ⟨?_, ?_, ?_, ?_, ?_⟩
  · intro form newId now hte t ht
    rcases submitTask_fst form tasks newId now with hF | hF
    · rw [hF] at ht
      exact hinv t ht
    · rw [hF] at ht
      rcases hK : form.taskToEdit with _ | te
      · simp only [handleSaveTask, hK] at ht
        rcases List.mem_append.mp ht with hmem | hmem
        · exact hinv t hmem
        · rcases List.mem_singleton.mp hmem with rfl
          simp [buildTaskData, hK, cdInv]
      · simp only [handleSaveTask, hK] at ht
        rcases List.mem_map.mp ht with ⟨t0, ht0, hstep⟩
        by_cases hid : t0.id = (buildTaskData form newId now).id
        · rw [if_pos hid] at hstep
          subst hstep
          have hcd := hte te hK
          simpa [buildTaskData, hK, cdInv] using hcd
        · rw [if_neg hid] at hstep
          subst hstep
          exact hinv t0 ht0
  · intro id s now hs t ht
    rcases List.mem_map.mp ht with ⟨t0, ht0, hstep⟩
    unfold statusStep at hstep
    by_cases hid : t0.id = id
    · rw [if_pos hid] at hstep
      by_cases hc : s = "Completed"
      · rw [if_pos hc] at hstep
        subst hstep
        simp [cdInv, hc]
      · rw [if_neg hc] at hstep
        subst hstep
        have hs3 : s = "Opened" ∨ s = "In Progress" ∨ s = "Completed" := by
          simpa [ACTIVE_STATUSES] using hs
        rcases hs3 with rfl | rfl | rfl
        · simp [cdInv]
        · simp [cdInv]
        · exact absurd rfl hc
    · rw [if_neg hid] at hstep
      subst hstep
      exact hinv t0 ht0
  · intro a b t ht
    rcases List.mem_map.mp ht with ⟨t0, ht0, hstep⟩
    unfold toggleStep at hstep
    by_cases hid : t0.id = a
    · rw [if_pos hid] at hstep
      subst hstep
      simpa [cdInv] using hinv t0 ht0
    · rw [if_neg hid] at hstep
      subst hstep
      exact hinv t0 ht0
  · intro w now t ht
    rcases List.mem_map.mp ht with ⟨t0, ht0, hstep⟩
    unfold archiveStep at hstep
    by_cases ha : shouldArchive w t0 = true
    · rw [if_pos ha] at hstep
      subst hstep
      have htr : jsTruthy t0.completedDate = true := by
        unfold shouldArchive at ha
        exact (Bool.and_eq_true_iff.mp ((Bool.and_eq_true_iff.mp ha).1)).2
      have hset : t0.completedDate.isSome = true := by
        unfold jsTruthy at htr
        cases hcd : t0.completedDate with
        | none => rw [hcd] at htr; simp at htr
        | some v => rfl
      simp [cdInv, hset]
    · rw [if_neg ha] at hstep
      subst hstep
      exact hinv t0 ht0
  · intro id t ht
    exact hinv t (List.mem_filter.mp ht).1

/-- Witness for C2's amended theorem: moving `tOpen3` (which satisfies the
invariant) to `Completed` at time 5 yields a record that still satisfies it. -/
theorem completedDate_inv_preserved_witness :
    cdInv { tOpen3 with status := "Completed", completedDate := some 5 } := by
  have h := (completedDate_inv_preserved [tOpen3] (by decide)).2.1 3 "Completed" 5 (by decide)
  exact h _ (by decide)

/-- For a positive window start (every actual call uses `Date.now()` minus
seven days, which is positive), the source's truthiness-guarded archive test
coincides with the specification's condition. -/
theorem shouldArchive_eq_cond (w : Int) (hw : 0 < w) (t : Task) :
    shouldArchive w t = archCondB w t := by
  unfold shouldArchive archCondB jsTruthy
  cases hcd : t.completedDate with
  | none => simp
  | some d =>
    simp only [Option.getD]
    by_cases hle : w ≤ d
    · have hne : d ≠ 0 := by omega
      simp [hle, hne]
    · simp [hle]

/-- Mapping two functions that agree on the elements of a list gives equal
results. -/
theorem listMapCongr {α β : Type} (f g : α → β) (l : List α) (h : ∀ x ∈ l, f x = g x) :
    l.map f = l.map g := by
  induction l with
  | nil => rfl
  | cons x xs ih =>
    simp only [List.map_cons]
    rw [h x (List.mem_cons_self x xs), ih fun y hy => h y (List.mem_cons_of_mem x hy)]

/-- C3: for a positive window start, `archiveCompleted` counts exactly the
tasks with status `Completed` and `completedDate >= windowStart`, transitions
exactly those to `Archived` with `archivedAt` set while leaving every other
task untouched, and a second run on the result archives nothing (its count is
zero). -/
theorem archiveCompleted_spec (tasks : List Task) (w n1 n2 : Int) (hw : 0 < w) :
    (handleArchiveCompletedTasks tasks w n1).2 = (tasks.filter (archCondB w)).length ∧
    (handleArchiveCompletedTasks tasks w n1).1 =
      tasks.map (fun t =>
        if archCondB w t then { t with status := "Archived", archivedAt := some n1 }
        else t) ∧
    (handleArchiveCompletedTasks (handleArchiveCompletedTasks tasks w n1).1 w n2).2 = 0 := by
  have hEq : ∀ t, shouldArchive w t = archCondB w t := shouldArchive_eq_cond w hw
  refine ⟨?_, ?_, ?_⟩
  · unfold handleArchiveCompletedTasks
    simp only
    congr 1
    apply List.filter_congr
    intro t _
    rw [hEq]
  · unfold handleArchiveCompletedTasks archiveStep
    simp only
    apply listMapCongr
    intro t _
    rw [hEq]
  · unfold handleArchiveCompletedTasks
    simp only
    rw [List.length_eq_zero, List.filter_eq_nil_iff]
    intro a ha
    rcases List.mem_map.mp ha with ⟨t0, ht0, rfl⟩
    unfold archiveStep
    by_cases hA : shouldArchive w t0 = true
    · rw [if_pos hA]
      have hne : (("Archived" : String) == "Completed") = false := by decide
      simp [shouldArchive, hne]
    · rw [if_neg hA]
      simp [hA]

/-- Witness for C3 at a concrete input: `tCompA` (completed at 5) qualifies
for window start 1 and is archived; `tOpen3` is untouched; the second run
archives nothing. -/
theorem archiveCompleted_spec_witness :
    (0 : Int) < 1 ∧
      ((handleArchiveCompletedTasks [tCompA, tOpen3] 1 100).2 =
          (([tCompA, tOpen3]).filter (archCondB 1)).length ∧
        (handleArchiveCompletedTasks [tCompA, tOpen3] 1 100).1 =
          ([tCompA, tOpen3]).map (fun t =>
            if archCondB 1 t then { t with status := "Archived", archivedAt := some 100 }
            else t) ∧
        (handleArchiveCompletedTasks
            (handleArchiveCompletedTasks [tCompA, tOpen3] 1 100).1 1 200).2 = 0) :=
  ⟨by decide, archiveCompleted_spec [tCompA, tOpen3] 1 100 200 (by decide)⟩

/-- Counterexample to C4 as stated: a direct transition to `Archived` is not
rejected — `changeStatus` applies it and the collection changes. -/
theorem changeStatus_no_error_cex :
    (handleTaskStatusChange [tOpen3] 3 "Archived" 10).map Task.status = ["Archived"] ∧
      handleTaskStatusChange [tOpen3] 3 "Archived" 10 ≠ [tOpen3] := by
  decide

/-- C4 as amended: `changeStatus` performs no validation at all. When no task
has the id the call is a silent no-op that leaves the collection unchanged
(no `NotFoundError` is raised), and any `newStatus` value — including
`Archived` — is applied as given to the matching task (no `ValidationError`). -/
theorem changeStatus_no_validation (tasks : List Task) (id : Nat) (s : String) (now : Int) :
    ((∀ t ∈ tasks, t.id ≠ id) → handleTaskStatusChange tasks id s now = tasks) ∧
    ∀ t ∈ tasks, t.id = id →
      { t with
          status := s,
          completedDate := if s = "Completed" then some now else none } ∈
        handleTaskStatusChange tasks id s now := by
  constructor
  · intro h
    unfold handleTaskStatusChange
    apply listMapId
    intro t ht
    unfold statusStep
    rw [if_neg (h t ht)]
  · intro t ht hid
    have hstep : statusStep id s now t =
        { t with
            status := s,
            completedDate := if s = "Completed" then some now else none } := by
      unfold statusStep
      rw [if_pos hid]
      by_cases hc : s = "Completed"
      · rw [if_pos hc, if_pos hc]
      · rw [if_neg hc, if_neg hc]
    rw [← hstep]
    exact List.mem_map_of_mem _ ht

/-- Witness for C4's amended theorem: `"Archived"` is applied verbatim to the
task with id 6. -/
theorem changeStatus_no_validation_witness :
    { tNoDue with
        status := "Archived",
        completedDate := if "Archived" = "Completed" then some 7 else none } ∈
      handleTaskStatusChange [tNoDue] 6 "Archived" 7 :=
  (changeStatus_no_validation [tNoDue] 6 "Archived" 7).2 tNoDue (by decide) rfl

/-- Counterexample to C5 as stated: deleting an id that does not exist is a
silent no-op — the collection is returned unchanged and nothing fails. -/
theorem delete_missing_noop_cex :
    handleDeleteTask [tOpen7] 99 = [tOpen7] := by
  decide

/-- C5 as amended: `delete(id)` removes every task with that id regardless of
its status and keeps every other task; when no task has the id it is a silent
no-op that returns the collection unchanged (there is no `NotFoundError`). -/
theorem delete_removes_by_id (tasks : List Task) (id : Nat) :
    (∀ t ∈ handleDeleteTask tasks id, t.id ≠ id) ∧
    (∀ t ∈ tasks, t.id ≠ id → t ∈ handleDeleteTask tasks id) ∧
    ((∀ t ∈ tasks, t.id ≠ id) → handleDeleteTask tasks id = tasks) := by
  unfold handleDeleteTask
  refine ⟨?_, ?_, ?_⟩
  · intro t ht
    have hp := (List.mem_filter.mp ht).2
    simpa using hp
  · intro t ht h
    exact List.mem_filter.mpr ⟨ht, by simpa using h⟩
  · intro h
    rw [List.filter_eq_self]
    intro a ha
    simpa using h a ha

/-- Witness for C5's amended theorem: deleting id 5 from a collection whose
only task has id 2 returns it unchanged. -/
theorem delete_removes_by_id_witness :
    handleDeleteTask [tCompB] 5 = [tCompB] :=
  (delete_removes_by_id [tCompB] 5).2.2 (by decide)

/-- A status-change step never rewrites the task id. -/
theorem statusStep_id (i : Nat) (s : String) (n : Int) (t : Task) :
    (statusStep i s n t).id = t.id := by
  unfold statusStep
  by_cases h : t.id = i
  · rw [if_pos h]
    by_cases hc : s = "Completed"
    · rw [if_pos hc]
    · rw [if_neg hc]
  · rw [if_neg h]

/-- Completing then reopening a task, per element. -/
theorem statusStep_roundtrip (id : Nat) (n1 n2 : Int) (t : Task) (h : t.id = id) :
    statusStep id "Opened" n2 (statusStep id "Completed" n1 t) =
      { t with status := "Opened", completedDate := none } := by
  unfold statusStep
  simp [h]

/-- C6: for every existing task, `changeStatus(id, Completed)` followed by
`changeStatus(id, Opened)` leaves the task present with status `Opened` and
`completedDate` cleared to null. -/
theorem completed_opened_roundtrip (tasks : List Task) (id : Nat) (n1 n2 : Int)
    (hex : ∃ t ∈ tasks, t.id = id) :
    (∃ t ∈ handleTaskStatusChange (handleTaskStatusChange tasks id "Completed" n1) id
        "Opened" n2, t.id = id) ∧
    ∀ t ∈ handleTaskStatusChange (handleTaskStatusChange tasks id "Completed" n1) id
        "Opened" n2, t.id = id → t.status = "Opened" ∧ t.completedDate = none := by
  constructor
  · rcases hex with ⟨t0, ht0, hid⟩
    refine ⟨statusStep id "Opened" n2 (statusStep id "Completed" n1 t0), ?_, ?_⟩
    · exact List.mem_map_of_mem _ (List.mem_map_of_mem _ ht0)
    · rw [statusStep_id, statusStep_id]
      exact hid
  · intro t ht hid
    rcases List.mem_map.mp ht with ⟨t1, ht1, rfl⟩
    rcases List.mem_map.mp ht1 with ⟨t0, ht0, rfl⟩
    by_cases h0 : t0.id = id
    · rw [statusStep_roundtrip id n1 n2 t0 h0]
      exact ⟨rfl, rfl⟩
    · rw [statusStep_id, statusStep_id] at hid
      exact absurd hid h0

/-- Witness for C6: the round trip on the singleton collection `[tOpen3]`. -/
theorem completed_opened_roundtrip_witness :
    (∃ t ∈ [tOpen3], t.id = 3) ∧
      ((∃ t ∈ handleTaskStatusChange (handleTaskStatusChange [tOpen3] 3 "Completed" 11) 3
          "Opened" 12, t.id = 3) ∧
        ∀ t ∈ handleTaskStatusChange (handleTaskStatusChange [tOpen3] 3 "Completed" 11) 3
            "Opened" 12, t.id = 3 → t.status = "Opened" ∧ t.completedDate = none) :=
  ⟨by decide, completed_opened_roundtrip [tOpen3] 3 11 12 (by decide)⟩

/-- Toggling the same subtask twice restores the subtask record. -/
theorem subtaskToggleStep_twice (b : Nat) (st : Subtask) :
    subtaskToggleStep b (subtaskToggleStep b st) = st := by
  obtain ⟨i, ti, c, dd, e⟩ := st
  unfold subtaskToggleStep
  by_cases h : i = b
  · simp [h, Bool.not_not]
  · simp [h]

/-- Toggling the same subtask of the same task twice restores the task. -/
theorem toggleStep_twice (a b : Nat) (t : Task) :
    toggleStep a b (toggleStep a b t) = t := by
  obtain ⟨i, ti, d, s, e, dd, cd, ca, ar, subs⟩ := t
  unfold toggleStep
  by_cases h : i = a
  · simp [h, List.map_map]
    exact listMapId _ _ fun st _ => subtaskToggleStep_twice b st
  · simp [h]

/-- A toggle step never changes the task status. -/
theorem toggleStep_status (a b : Nat) (t : Task) :
    (toggleStep a b t).status = t.status := by
  unfold toggleStep
  by_cases h : t.id = a
  · rw [if_pos h]
  · rw [if_neg h]

/-- C7: for resolving task and subtask ids, toggling the same subtask twice
restores the collection exactly (so the subtask's `completed` flag returns to
its original value), and neither the first nor the second call alters any
task's status. -/
theorem toggleSubtask_involution (tasks : List Task) (a b : Nat) (t0 : Task) (s0 : Subtask)
    (ht : t0 ∈ tasks) (hid : t0.id = a) (hs : s0 ∈ t0.subtasks) (hsid : s0.id = b) :
    handleToggleSubtask (handleToggleSubtask tasks a b) a b = tasks ∧
    (handleToggleSubtask tasks a b).map Task.status = tasks.map Task.status ∧
    (handleToggleSubtask (handleToggleSubtask tasks a b) a b).map Task.status =
      tasks.map Task.status := by
  have h1 : handleToggleSubtask (handleToggleSubtask tasks a b) a b = tasks := by
    unfold handleToggleSubtask
    rw [List.map_map]
    exact listMapId _ _ fun t _ => toggleStep_twice a b t
  refine ⟨h1, ?_, by rw [h1]⟩
  unfold handleToggleSubtask
  rw [List.map_map]
  exact listMapCongr _ _ _ fun t _ => toggleStep_status a b t

/-- Witness for C7: the double toggle on `tTog` (task id 5, subtask id 9). -/
theorem toggleSubtask_involution_witness :
    handleToggleSubtask (handleToggleSubtask [tTog] 5 9) 5 9 = [tTog] ∧
      (handleToggleSubtask [tTog] 5 9).map Task.status = [tTog].map Task.status ∧
      (handleToggleSubtask (handleToggleSubtask [tTog] 5 9) 5 9).map Task.status =
        [tTog].map Task.status :=
  toggleSubtask_involution [tTog] 5 9 tTog ⟨9, "s", false, none, some 1⟩
    (by decide) rfl (by decide) rfl

/-- Counterexample to C8 as stated: with the `dueDate` sort selected, the
`Completed` group keeps collection order (`tCompA` due 5 before `tCompB`
due 3) and is not sorted ascending by due date — the source sorts only the
`Opened` and `In Progress` groups. -/
theorem completed_group_unsorted_cex :
    (groupedTasks [tCompA, tCompB] "" none "dueDate" "Completed").map Task.dueDate =
        [some 5, some 3] ∧
      ¬ List.Sorted dueRel (groupedTasks [tCompA, tCompB] "" none "dueDate" "Completed") := by
  decide

/-- C8 as amended: the `Opened` and `In Progress` groups are sorted by the
caller-selected key (ascending due date with missing dates last, or
descending eta with missing etas treated as zero), while the `Completed`
group is left in filtered collection order, unsorted. -/
theorem board_groups_sorted (tasks : List Task) (q : String) (dueBy : Option Int)
    (s : String) (hs : s = "Opened" ∨ s = "In Progress") :
    List.Sorted dueRel (groupedTasks tasks q dueBy "dueDate" s) ∧
    List.Sorted etaRel (groupedTasks tasks q dueBy "eta" s) ∧
    ∀ k, groupedTasks tasks q dueBy k "Completed" =
      groupedTasksRaw tasks q dueBy "Completed" := by
  refine ⟨?_, ?_, ?_⟩
  · unfold groupedTasks sortBoard
    rw [if_pos hs, if_pos rfl]
    exact List.sorted_insertionSort dueRel _
  · unfold groupedTasks sortBoard
    rw [if_pos hs, if_neg (by decide : ¬("eta" : String) = "dueDate"), if_pos rfl]
    exact List.sorted_insertionSort etaRel _
  · intro k
    unfold groupedTasks
    rw [if_neg (by decide : ¬(("Completed" : String) = "Opened" ∨
      ("Completed" : String) = "In Progress"))]

/-- Witness for C8's amended theorem at the `Opened` group of a concrete
board. -/
theorem board_groups_sorted_witness :
    List.Sorted dueRel (groupedTasks [tOpen7, tOpen3] "" none "dueDate" "Opened") ∧
      List.Sorted etaRel (groupedTasks [tOpen7, tOpen3] "" none "eta" "Opened") ∧
      ∀ k, groupedTasks [tOpen7, tOpen3] "" none k "Completed" =
        groupedTasksRaw [tOpen7, tOpen3] "" none "Completed" :=
  board_groups_sorted [tOpen7, tOpen3] "" none "Opened" (Or.inl rfl)

/-- Folding eta over a column equals summing the eta keys. -/
theorem sumEta_eq (l : List Task) : sumEta l = (l.map etaKey).sum := by
  have aux : ∀ (l : List Task) (a : Int),
      l.foldl (fun sum t => sum + jsOrElse t.eta 0) a = a + (l.map etaKey).sum := by
    intro l
    induction l with
    | nil => intro a; simp
    | cons x xs ih =>
      intro a
      simp only [List.foldl_cons, List.map_cons, List.sum_cons, ih, etaKey]
      ring
  unfold sumEta
  rw [aux]
  simp

/-- Sorting a column does not change its eta sum. -/
theorem sumEta_sortBoard (k : String) (l : List Task) :
    sumEta (sortBoard k l) = sumEta l := by
  unfold sortBoard
  by_cases h1 : k = "dueDate"
  · rw [if_pos h1, sumEta_eq, sumEta_eq]
    exact List.Perm.sum_eq (List.Perm.map etaKey (List.perm_insertionSort dueRel l))
  · rw [if_neg h1]
    by_cases h2 : k = "eta"
    · rw [if_pos h2, sumEta_eq, sumEta_eq]
      exact List.Perm.sum_eq (List.Perm.map etaKey (List.perm_insertionSort etaRel l))
    · rw [if_neg h2]

/-- C9: `pointSummary` for each active status is the eta sum over exactly the
filtered and grouped tasks of that status (not the whole collection); in
particular two `Opened` tasks with eta 3 and 7 and no filters give 10, and a
text filter matching nothing gives 0 for every status even though the
collection still holds eta. -/
theorem pointSummary_visible_sum :
    (∀ (tasks : List Task) (q : String) (dueBy : Option Int) (k : String),
        pointSummary tasks q dueBy k "Opened" =
          (((tasks.filter (boardPass q dueBy)).filter
              fun t => groupKey t == "Opened").map etaKey).sum ∧
        pointSummary tasks q dueBy k "In Progress" =
          (((tasks.filter (boardPass q dueBy)).filter
              fun t => groupKey t == "In Progress").map etaKey).sum ∧
        pointSummary tasks q dueBy k "Completed" =
          (((tasks.filter (boardPass q dueBy)).filter
              fun t => groupKey t == "Completed").map etaKey).sum) ∧
    pointSummary [tOpen3, tOpen7] "" none "dueDate" "Opened" = 10 ∧
    pointSummary [tOpen3, tOpen7] "zz" none "dueDate" "Opened" = 0 ∧
    pointSummary [tOpen3, tOpen7] "zz" none "dueDate" "In Progress" = 0 ∧
    pointSummary [tOpen3, tOpen7] "zz" none "dueDate" "Completed" = 0 := by
  refine ⟨?_, by decide, by decide, by decide, by decide⟩
  intro tasks q dueBy k
  refine ⟨?_, ?_, ?_⟩
  · unfold pointSummary groupedTasks
    rw [if_pos (Or.inl rfl), sumEta_sortBoard, sumEta_eq]
    rfl
  · unfold pointSummary groupedTasks
    rw [if_pos (Or.inr rfl), sumEta_sortBoard, sumEta_eq]
    rfl
  · unfold pointSummary groupedTasks
    rw [if_neg (by decide : ¬(("Completed" : String) = "Opened" ∨
      ("Completed" : String) = "In Progress")), sumEta_eq]
    rfl

/-- Sorting a column does not change membership. -/
theorem mem_sortBoard (k : String) (t : Task) (l : List Task) :
    t ∈ sortBoard k l ↔ t ∈ l := by
  unfold sortBoard
  by_cases h1 : k = "dueDate"
  · rw [if_pos h1]
    exact List.Perm.mem_iff (List.perm_insertionSort dueRel l)
  · rw [if_neg h1]
    by_cases h2 : k = "eta"
    · rw [if_pos h2]
      exact List.Perm.mem_iff (List.perm_insertionSort etaRel l)
    · rw [if_neg h2]

/-- Membership in a displayed column is membership in the raw filtered
group. -/
theorem mem_groupedTasks (tasks : List Task) (q : String) (dueBy : Option Int)
    (k status : String) (t : Task) :
    t ∈ groupedTasks tasks q dueBy k status ↔ t ∈ groupedTasksRaw tasks q dueBy status := by
  unfold groupedTasks
  by_cases h : status = "Opened" ∨ status = "In Progress"
  · rw [if_pos h]
    exact mem_sortBoard k t _
  · rw [if_neg h]

/-- C10: when a due-by ceiling is active, a task with no `dueDate` is excluded
from every board group; when no ceiling is set, a non-archived task matching
the text filter is included (in its own group) even without a `dueDate`. -/
theorem dueBy_excludes_missing (tasks : List Task) (q k : String) (thr : Int) (t : Task)
    (hdue : t.dueDate = none) :
    (∀ s, t ∉ groupedTasks tasks q (some thr) k s) ∧
    (t ∈ tasks → t.status ≠ "Archived" → matchesSearchQ (toLowerStr q) t = true →
      t ∈ groupedTasks tasks q none k (groupKey t)) := by
  constructor
  · intro s hmem
    rw [mem_groupedTasks] at hmem
    unfold groupedTasksRaw at hmem
    have hp := (List.mem_filter.mp (List.mem_filter.mp hmem).1).2
    unfold boardPass matchesDueBy jsTruthy at hp
    rw [hdue] at hp
    simp at hp
  · intro hmem hstat hsearch
    rw [mem_groupedTasks]
    unfold groupedTasksRaw
    refine List.mem_filter.mpr ⟨List.mem_filter.mpr ⟨hmem, ?_⟩, ?_⟩
    · have hb : (t.status == "Archived") = false := beq_eq_false_iff_ne.mpr hstat
      unfold boardPass matchesDueBy
      simp [hb, hsearch]
    · simp

/-- Witness for C10: the task `tNoDue` (no due date) is excluded from the
`Opened` group once the ceiling 5 is active. -/
theorem dueBy_excludes_missing_witness :
    tNoDue ∉ groupedTasks [tNoDue] "" (some 5) "dueDate" "Opened" :=
  (dueBy_excludes_missing [tNoDue] "" "dueDate" 5 tNoDue rfl).1 "Opened"

end Kanban
